import Mathlib

/-!
# A verification development for the `bts::vote` ballot box storage/index engine

This file gives a shallow embedding of `libraries/vote/ballot_box.cpp`: the three
durable record stores (LevelDB `level_map`s, modelled as key-sorted association
lists), the in-memory secondary indices (a `boost::multi_index_container` over
decisions with a unique hashed id view, `std::multimap`s for write-ins /
ballot-contests / contestants, and an ordered `(key, value)` composite index for
contest tags), the store/open/clear/close lifecycle, and the query operations.

The domain record types (`voter_decision`, `signed_voter_decision`, `ballot`,
`contest`) and their content-derived digests are declared in headers outside the
translated sources; they are modelled from the specification, as abstract
records with an explicit injective numeric encoding standing in for the
cryptographic digest.
-/

/-- `fc::digest_type`, a content-derived record identifier.  Modelled as `Nat`. -/
abbrev digest_type := Nat

/-- `bts::blockchain::address`.  Modelled as `Nat`. -/
abbrev address := Nat

/-- `bts::blockchain::public_key_type`.  Modelled as `Nat`. -/
abbrev public_key_type := Nat

/-- Modelled from the spec: a `voter_decision` (declared in `vote.hpp`, outside the
translated sources) carries a contest identifier, a ballot identifier and an
ordered sequence of free-text write-in names. -/
structure voter_decision where
  contest_id : digest_type
  ballot_id : digest_type
  write_in_names : List String
deriving DecidableEq

/-- Modelled from the spec: a `signed_voter_decision` is a `voter_decision`
together with the voter's signature material. -/
structure signed_voter_decision extends voter_decision where
  voter_signature : Nat
deriving DecidableEq

/-- The default-constructed `signed_voter_decision` (zero digests, no write-ins,
zero signature). -/
def default_signed_voter_decision : signed_voter_decision :=
  { contest_id := 0, ballot_id := 0, write_in_names := [], voter_signature := 0 }

instance : Inhabited signed_voter_decision := ⟨default_signed_voter_decision⟩

/-- Modelled from the spec: `signed_voter_decision::voter_public_key()` recovers
the voter's public key from the signature; modelled as an abstract function of
the signature material. -/
def signed_voter_decision.voter_public_key (d : signed_voter_decision) : public_key_type :=
  d.voter_signature

/-- Conversion of a public key to a `bts::blockchain::address` (a hash of the
key, hence injective for our purposes).  Modelled as the identity on the
numeric model. -/
def address_of_key (k : public_key_type) : address := k

/-- Injective numeric encoding of a string (base `2^21` over code points; every
code point is `< 0x110000 < 2^21`). -/
def encode_string (s : String) : Nat :=
  s.data.foldl (fun a c => a * 2097152 + (c.toNat + 1)) 0

/-- Injective numeric encoding of a list of naturals via `Nat.pair`. -/
def encode_nat_list (l : List Nat) : Nat :=
  l.foldr (fun a r => Nat.pair a r + 1) 0

/-- Modelled from the spec: the content-derived digest of a
`signed_voter_decision` (`decision.digest()`), covering all record content. -/
def signed_voter_decision.digest (d : signed_voter_decision) : digest_type :=
  Nat.pair d.contest_id
    (Nat.pair d.ballot_id
      (Nat.pair d.voter_signature (encode_nat_list (d.write_in_names.map encode_string))))

/-- Modelled from the spec: a `ballot` is a named collection of contest
identifiers. -/
structure ballot where
  title : String
  contests : List digest_type
deriving DecidableEq

/-- Modelled from the spec: the content-derived identifier of a ballot
(`ballot.id()`). -/
def ballot.id (b : ballot) : digest_type :=
  Nat.pair (encode_string b.title) (encode_nat_list b.contests)

/-- Modelled from the spec: a contestant in a contest, carrying a name. -/
structure contestant where
  name : String
deriving DecidableEq

/-- Modelled from the spec: a `contest` carries a list of contestants and a
collection of tag key/value pairs (multiple values per key permitted). -/
structure contest where
  contestants : List contestant
  tags : List (String × String)
deriving DecidableEq

/-- Modelled from the spec: the content-derived identifier of a contest
(`contest.id()`). -/
def contest.id (c : contest) : digest_type :=
  Nat.pair (encode_nat_list (c.contestants.map (fun x => encode_string x.name)))
    (encode_nat_list (c.tags.map (fun p => Nat.pair (encode_string p.1) (encode_string p.2))))

/-! ## Ordering on strings

`std::multimap<string, _>` and the ordered composite tag index compare strings
lexicographically.  `String.decidableLT` in the library is phrased over
iterators and does not reduce in the kernel, so we use a structurally recursive
lexicographic comparison on the underlying character lists and prove it
equivalent to the library order `<` on `String`. -/

/-- Lexicographic strict comparison of character lists (by code point). -/
def charListLT : List Char → List Char → Bool
  | [], [] => false
  | [], _ :: _ => true
  | _ :: _, [] => false
  | a :: as, b :: bs =>
    if a.toNat < b.toNat then true
    else if b.toNat < a.toNat then false
    else charListLT as bs

/-- Lexicographic strict comparison of strings. -/
def strLT (a b : String) : Bool := charListLT a.data b.data

/-- Lexicographic (non-strict) comparison of strings; `a ≤ b ↔ ¬ b < a`. -/
def strLE (a b : String) : Bool := !(strLT b a)

/-! ## The generic ordered-insert used by the multimap / ordered-index models

`std::multimap::insert` and `ordered_non_unique` insertion place a new element
at the upper bound of its equal range: after every existing element `x` with
`x ≤ t` and before the first strictly greater element. -/

/-- Ordered insert at the end of the equal range, for an arbitrary boolean
comparison `le`. -/
def insert_upper {α : Type} (le : α → α → Bool) : List α → α → List α
  | [], t => [t]
  | x :: xs, t => if le x t then x :: insert_upper le xs t else t :: x :: xs

/-! ## The durable stores

`bts::db::level_map<digest_type, T>` is modelled as an association list kept
sorted by key: `store` upserts, `fetch` is a point lookup failing with
`NotFound`, and iteration (used by the rebuild in `open` and the wipe in
`clear`) visits entries in ascending key order. -/

/-- `level_map::store`: durable upsert, keeping the entries sorted by key. -/
def level_map_store {α : Type} : List (Nat × α) → Nat → α → List (Nat × α)
  | [], k, v => [(k, v)]
  | (k', v') :: rest, k, v =>
    if k < k' then (k, v) :: (k', v') :: rest
    else if k = k' then (k, v) :: rest
    else (k', v') :: level_map_store rest k v

/-- `level_map::fetch`: point lookup. -/
def level_map_fetch {α : Type} : List (Nat × α) → Nat → Option α
  | [], _ => none
  | (k', v') :: rest, k => if k = k' then some v' else level_map_fetch rest k

/-! ## The storage and index record types (`ballot_box.cpp` lines 27-50, 88-92) -/

/-- `decision_storage_record` (ballot_box.cpp:27-32): the record type persisted
for decisions, a `signed_voter_decision` plus the cached `voter_key`. -/
structure decision_storage_record extends signed_voter_decision where
  voter_key : public_key_type
deriving DecidableEq

/-- The converting constructor `decision_storage_record(const
signed_voter_decision& = signed_voter_decision())` at ballot_box.cpp:29.  Its
parameter is unnamed and unused and the base class does not appear in a
mem-initializer list, so the `signed_voter_decision` base subobject is
default-initialized regardless of the argument; the member initializer
`voter_key = voter_public_key()` then reads the key of that default base. -/
def decision_storage_record.ofSigned (_d : signed_voter_decision) : decision_storage_record :=
  { tosigned_voter_decision := default_signed_voter_decision,
    voter_key := default_signed_voter_decision.voter_public_key }

/-- `decision_index_record` (ballot_box.cpp:33-50): the element type of the
decision multi-index container. -/
structure decision_index_record where
  id : digest_type
  voter : address
  contest_id : digest_type
  write_in_names : List String
  ballot_id : digest_type
deriving DecidableEq

/-- The `decision_index_record(id, s)` constructor (ballot_box.cpp:37-43). -/
def decision_index_record.ofStorage (id : digest_type) (s : decision_storage_record) :
    decision_index_record :=
  { id := id,
    voter := address_of_key s.voter_key,
    contest_id := s.contest_id,
    write_in_names := s.write_in_names,
    ballot_id := s.ballot_id }

/-- Insertion into the decision `multi_index_container` (ballot_box.cpp:52-80):
the container has a `hashed_unique` index on `id`, so inserting a record whose
`id` is already present fails and leaves the container unchanged; otherwise the
record is added. -/
def decision_index_insert (idx : List decision_index_record) (r : decision_index_record) :
    List decision_index_record :=
  if idx.any (fun x => x.id == r.id) then idx else idx ++ [r]

/-- `contest_tags_index_record` (ballot_box.cpp:88-92). -/
structure contest_tags_index_record where
  key : String
  value : String
  contest_id : digest_type
deriving DecidableEq

/-- Comparison of tag index records by the composite key `(key, value)`
(ballot_box.cpp:94-106). -/
def tagLE (a b : contest_tags_index_record) : Bool :=
  strLT a.key b.key || (a.key == b.key && strLE a.value b.value)

/-- Comparison of `std::multimap<string, digest_type>` entries (by key). -/
def strKeyLE (a b : String × digest_type) : Bool := strLE a.1 b.1

/-- Comparison of `std::multimap<digest_type, digest_type>` entries (by key). -/
def natKeyLE (a b : digest_type × digest_type) : Bool := decide (a.1 ≤ b.1)

/-! ## The engine state (`detail::ballot_box_impl`, ballot_box.cpp:18-109) -/

/-- The state of `detail::ballot_box_impl`: the three durable stores, the five
in-memory secondary index structures, the `databases_open` flag, and one
handle-open flag per `level_map` (so that `ballot_box::close`, which closes only
`decision_db`, can be distinguished from `ballot_box_impl::close`). -/
structure ballot_box_state where
  decision_db : List (digest_type × signed_voter_decision)
  decision_index : List decision_index_record
  write_in_index : List (String × digest_type)
  ballot_db : List (digest_type × ballot)
  ballot_by_contest_index : List (digest_type × digest_type)
  contest_db : List (digest_type × contest)
  contest_tags_index : List contest_tags_index_record
  contest_by_contestant_index : List (String × digest_type)
  databases_open : Bool
  decision_db_open : Bool
  ballot_db_open : Bool
  contest_db_open : Bool
deriving DecidableEq

/-- The freshly constructed engine: empty stores and indices, everything
closed. -/
def init_state : ballot_box_state :=
  { decision_db := [], decision_index := [], write_in_index := [],
    ballot_db := [], ballot_by_contest_index := [],
    contest_db := [], contest_tags_index := [], contest_by_contestant_index := [],
    databases_open := false,
    decision_db_open := false, ballot_db_open := false, contest_db_open := false }

/-- `update_index(id, decision_storage_record)` (ballot_box.cpp:111-116): insert
the index record into the decision multi-index, then one `write_in_index` entry
per write-in name. -/
def update_index_decision (st : ballot_box_state) (id : digest_type)
    (s : decision_storage_record) : ballot_box_state :=
  { st with
    decision_index := decision_index_insert st.decision_index (decision_index_record.ofStorage id s),
    write_in_index :=
      s.write_in_names.foldl (fun m w => insert_upper strKeyLE m (w, id)) st.write_in_index }

/-- `update_index(id, ballot_storage_record)` (ballot_box.cpp:117-121): one
`ballot_by_contest_index` entry per contest listed on the ballot. -/
def update_index_ballot (st : ballot_box_state) (id : digest_type) (b : ballot) :
    ballot_box_state :=
  { st with
    ballot_by_contest_index :=
      b.contests.foldl (fun m c => insert_upper natKeyLE m (c, id)) st.ballot_by_contest_index }

/-- `update_index(id, contest_storage_record)` (ballot_box.cpp:122-128): one
`contest_by_contestant_index` entry per contestant, one `contest_tags_index`
entry per tag pair. -/
def update_index_contest (st : ballot_box_state) (id : digest_type) (c : contest) :
    ballot_box_state :=
  { st with
    contest_by_contestant_index :=
      c.contestants.foldl (fun m ct => insert_upper strKeyLE m (ct.name, id))
        st.contest_by_contestant_index,
    contest_tags_index :=
      c.tags.foldl (fun m p => insert_upper tagLE m ⟨p.1, p.2, id⟩) st.contest_tags_index }

/-- `store_record(const signed_voter_decision&)` (ballot_box.cpp:130-136),
success path: compute the digest, build the storage record, persist its
`signed_voter_decision` base into `decision_db`, then update the indices. -/
def store_record_decision (st : ballot_box_state) (d : signed_voter_decision) :
    ballot_box_state :=
  let id := d.digest
  let record := decision_storage_record.ofSigned d
  update_index_decision
    { st with decision_db := level_map_store st.decision_db id record.tosigned_voter_decision }
    id record

/-- `store_record(const vote::ballot&)` (ballot_box.cpp:137-142), success path. -/
def store_record_ballot (st : ballot_box_state) (b : ballot) : ballot_box_state :=
  let id := b.id
  update_index_ballot { st with ballot_db := level_map_store st.ballot_db id b } id b

/-- `store_record(const vote::contest&)` (ballot_box.cpp:143-148), success path. -/
def store_record_contest (st : ballot_box_state) (c : contest) : ballot_box_state :=
  let id := c.id
  update_index_contest { st with contest_db := level_map_store st.contest_db id c } id c

/-- `level_map::store` with an explicit durable-layer outcome: when the durable
write fails (`ok = false`) it throws, producing no new mapping. -/
def level_map_store_fallible {α : Type} (ok : Bool) (m : List (Nat × α)) (k : Nat) (v : α) :
    Option (List (Nat × α)) :=
  if ok then some (level_map_store m k v) else none

/-- `store_record(const signed_voter_decision&)` with an explicit durable-layer
outcome.  A thrown durable error propagates out of `store_record` before
`update_index` runs, so the error case carries the engine state exactly as it
was at the throw point: the input state, all indices unmodified. -/
def store_record_decision_fallible (ok : Bool) (st : ballot_box_state)
    (d : signed_voter_decision) : Except (String × ballot_box_state) ballot_box_state :=
  let id := d.digest
  let record := decision_storage_record.ofSigned d
  match level_map_store_fallible ok st.decision_db id record.tosigned_voter_decision with
  | none => Except.error ("DurableIOError", st)
  | some db => Except.ok (update_index_decision { st with decision_db := db } id record)

/-- `store_record(const vote::ballot&)` with an explicit durable-layer outcome. -/
def store_record_ballot_fallible (ok : Bool) (st : ballot_box_state) (b : ballot) :
    Except (String × ballot_box_state) ballot_box_state :=
  let id := b.id
  match level_map_store_fallible ok st.ballot_db id b with
  | none => Except.error ("DurableIOError", st)
  | some db => Except.ok (update_index_ballot { st with ballot_db := db } id b)

/-- `store_record(const vote::contest&)` with an explicit durable-layer outcome. -/
def store_record_contest_fallible (ok : Bool) (st : ballot_box_state) (c : contest) :
    Except (String × ballot_box_state) ballot_box_state :=
  let id := c.id
  match level_map_store_fallible ok st.contest_db id c with
  | none => Except.error ("DurableIOError", st)
  | some db => Except.ok (update_index_contest { st with contest_db := db } id c)

/-- `ballot_box_impl::open` (ballot_box.cpp:150-167): refuse if already open;
otherwise open the three stores and rebuild the indices by iterating every
persisted record in ascending key order through `update_index`.  The persisted
decision values are `signed_voter_decision`s and are passed through the
`decision_storage_record` converting constructor.  The durable directory
contents are the `*_db` components of the state, which survive a close. -/
def openBox (st : ballot_box_state) : Except String ballot_box_state :=
  if st.databases_open then Except.error "Refusing to open already-opened ballot box."
  else
    let st1 := { st with decision_db_open := true, ballot_db_open := true, contest_db_open := true }
    let st2 := st1.decision_db.foldl
      (fun s kv => update_index_decision s kv.1 (decision_storage_record.ofSigned kv.2)) st1
    let st3 := st2.ballot_db.foldl (fun s kv => update_index_ballot s kv.1 kv.2) st2
    let st4 := st3.contest_db.foldl (fun s kv => update_index_contest s kv.1 kv.2) st3
    Except.ok { st4 with databases_open := true }

/-- `ballot_box_impl::clear` (ballot_box.cpp:168-185): if the databases are
open, remove every record from each store (durable wipe); always clear all five
in-memory indices; the open/closed state is not touched. -/
def clearBox (st : ballot_box_state) : ballot_box_state :=
  let st1 := if st.databases_open then
      { st with decision_db := [], ballot_db := [], contest_db := [] }
    else st
  { st1 with decision_index := [], write_in_index := [], ballot_by_contest_index := [],
             contest_by_contestant_index := [], contest_tags_index := [] }

/-- `ballot_box_impl::close` (ballot_box.cpp:186-197): refuse if not open; set
`databases_open = false`, close the three stores, then call `clear()` (which,
the flag now being false, skips the durable wipe and empties the in-memory
indices). -/
def implClose (st : ballot_box_state) : Except String ballot_box_state :=
  if st.databases_open then
    Except.ok (clearBox
      { st with
        databases_open := false, decision_db_open := false, ballot_db_open := false,
        contest_db_open := false })
  else Except.error "Cannot close unopened ballot box."

/-- `ballot_box::close` (ballot_box.cpp:303-306): the public facade's close.  It
calls `my->decision_db.close()` — it closes only the decision store handle and
performs none of the other work of `ballot_box_impl::close`: `ballot_db` and
`contest_db` stay open, no index is cleared, and `databases_open` stays as it
was. -/
def facadeClose (st : ballot_box_state) : ballot_box_state :=
  { st with decision_db_open := false }

/-- `ballot_box::is_open` (ballot_box.cpp:293-296). -/
def isOpen (st : ballot_box_state) : Bool := st.databases_open

/-- `ballot_box::get_decision` (ballot_box.cpp:313-316): point fetch from
`decision_db`, failing with `NotFound` when absent. -/
def get_decision (st : ballot_box_state) (id : digest_type) :
    Except String signed_voter_decision :=
  match level_map_fetch st.decision_db id with
  | some r => Except.ok r
  | none => Except.error "NotFound"

/-- `get_decisions_by_key<by_voter>` (ballot_box.cpp:199-212): the ids of all
decision index records whose `voter` equals the key (hashed index, order
unspecified; the model keeps insertion order). -/
def get_decisions_by_voter (st : ballot_box_state) (voter : address) : List digest_type :=
  (st.decision_index.filter (fun r => r.voter == voter)).map (fun r => r.id)

/-- `get_decisions_by_key<by_contest>` (ballot_box.cpp:213-216). -/
def get_decisions_by_contest (st : ballot_box_state) (contest_id : digest_type) :
    List digest_type :=
  (st.decision_index.filter (fun r => r.contest_id == contest_id)).map (fun r => r.id)

/-- `get_decisions_by_key<by_ballot>` (ballot_box.cpp:217-220). -/
def get_decisions_by_ballot (st : ballot_box_state) (ballot_id : digest_type) :
    List digest_type :=
  (st.decision_index.filter (fun r => r.ballot_id == ballot_id)).map (fun r => r.id)

/-- The distinct-keys scan of `get_all_write_ins` (ballot_box.cpp:222-230): walk
the key-sorted multimap, emitting each key once and jumping to the upper bound
of its equal range (on a key-sorted list, dropping every remaining entry with
the same key). -/
def distinct_keys : List (String × digest_type) → List String
  | [] => []
  | p :: rest => p.1 :: distinct_keys (rest.filter (fun q => !(q.1 == p.1)))
termination_by l => l.length
decreasing_by
  simp only [List.length_cons]
  exact Nat.lt_succ_of_le (List.length_filter_le _ _)

/-- `get_all_write_ins` (ballot_box.cpp:222-230). -/
def get_all_write_ins (st : ballot_box_state) : List String :=
  distinct_keys st.write_in_index

/-- `get_decisions_with_write_in` (ballot_box.cpp:231-239): equal range of the
write-in multimap. -/
def get_decisions_with_write_in (st : ballot_box_state) (write_in_name : String) :
    List digest_type :=
  (st.write_in_index.filter (fun p => p.1 == write_in_name)).map (fun p => p.2)

/-- `get_ballots_by_contest` (ballot_box.cpp:241-249). -/
def get_ballots_by_contest (st : ballot_box_state) (contest_id : digest_type) :
    List digest_type :=
  (st.ballot_by_contest_index.filter (fun p => p.1 == contest_id)).map (fun p => p.2)

/-- The distinct-values scan of `get_values_by_tag` (ballot_box.cpp:251-259):
within the equal range of `key`, emit each value once, jumping to the upper
bound of the `(key, value)` equal range (on a sorted range, dropping every
remaining entry with the same value). -/
def distinct_values : List contest_tags_index_record → List String
  | [] => []
  | t :: rest => t.value :: distinct_values (rest.filter (fun u => !(u.value == t.value)))
termination_by l => l.length
decreasing_by
  simp only [List.length_cons]
  exact Nat.lt_succ_of_le (List.length_filter_le _ _)

/-- `get_values_by_tag` (ballot_box.cpp:251-259). -/
def get_values_by_tag (st : ballot_box_state) (key : String) : List String :=
  distinct_values (st.contest_tags_index.filter (fun t => t.key == key))

/-- `get_contests_by_tags` (ballot_box.cpp:260-270): the equal range of the
composite key `(key, value)`, widened to the whole `key` range when `value` is
the empty string; one emitted contest id per index entry in range. -/
def get_contests_by_tags (st : ballot_box_state) (key value : String) : List digest_type :=
  if value == "" then
    (st.contest_tags_index.filter (fun t => t.key == key)).map (fun t => t.contest_id)
  else
    (st.contest_tags_index.filter (fun t => t.key == key && t.value == value)).map
      (fun t => t.contest_id)

/-- `get_contests_by_contestant` (ballot_box.cpp:271-279). -/
def get_contests_by_contestant (st : ballot_box_state) (name : String) : List digest_type :=
  (st.contest_by_contestant_index.filter (fun p => p.1 == name)).map (fun p => p.2)

/-- The state right after a successful `open` on a fresh (empty) data
directory. -/
def opened_empty : ballot_box_state :=
  { init_state with
      databases_open := true
      decision_db_open := true
      ballot_db_open := true
      contest_db_open := true }

/-- Sequentially store a list of contests (success path). -/
def store_contests (cs : List contest) : ballot_box_state :=
  cs.foldl store_record_contest opened_empty

/-! ## Order lemmas for the string comparison -/

/-- `charListLT` agrees with the lexicographic order on character lists. -/
theorem charListLT_iff : ∀ as bs : List Char, charListLT as bs = true ↔ as < bs
  | [], [] => by
    simp only [charListLT]
    exact iff_of_false (by simp) (fun h => by cases h)
  | [], _ :: _ => by
    simp only [charListLT]
    exact iff_of_true trivial List.Lex.nil
  | _ :: _, [] => by
    simp only [charListLT]
    exact iff_of_false (by simp) (fun h => by cases h)
  | a :: as, b :: bs => by
    simp only [charListLT]
    rcases lt_trichotomy a b with h | h | h
    · rw [if_pos (show a.toNat < b.toNat from h)]
      exact iff_of_true rfl (List.Lex.rel h)
    · subst h
      rw [if_neg (lt_irrefl a.toNat), if_neg (lt_irrefl a.toNat)]
      constructor
      · intro hcl
        exact List.Lex.cons ((charListLT_iff as bs).mp hcl)
      · intro hl
        cases hl with
        | cons h' => exact (charListLT_iff as bs).mpr h'
        | rel h' => exact absurd h' (lt_irrefl a)
    · rw [if_neg (show ¬ a.toNat < b.toNat from fun hh => lt_asymm h hh),
        if_pos (show b.toNat < a.toNat from h)]
      refine iff_of_false (by simp) (fun hl => ?_)
      cases hl with
      | cons h' => exact absurd h (lt_irrefl a)
      | rel h' => exact lt_asymm h h'

/-- `strLT` agrees with the library order `<` on `String`. -/
theorem strLT_iff (s t : String) : strLT s t = true ↔ s < t := by
  rw [String.lt_iff_toList_lt]
  exact charListLT_iff s.data t.data

/-- `strLE` agrees with the library order `≤` on `String`. -/
theorem strLE_iff (s t : String) : strLE s t = true ↔ s ≤ t := by
  constructor
  · intro h
    refine not_lt.mp (fun hl => ?_)
    rw [strLE, (strLT_iff t s).mpr hl] at h
    exact absurd h (by simp)
  · intro h
    have hf : strLT t s = false := by
      cases hb : strLT t s with
      | false => rfl
      | true => exact absurd ((strLT_iff t s).mp hb) (not_lt.mpr h)
    simp [strLE, hf]

/-- `tagLE` is the lexicographic composite order on `(key, value)`. -/
theorem tagLE_iff (a b : contest_tags_index_record) :
    tagLE a b = true ↔ a.key < b.key ∨ (a.key = b.key ∧ a.value ≤ b.value) := by
  simp [tagLE, strLT_iff, strLE_iff]

/-- `tagLE` is total. -/
theorem tagLE_total (a b : contest_tags_index_record) :
    tagLE a b = true ∨ tagLE b a = true := by
  rw [tagLE_iff, tagLE_iff]
  rcases lt_trichotomy a.key b.key with h | h | h
  · exact Or.inl (Or.inl h)
  · rcases le_total a.value b.value with hv | hv
    · exact Or.inl (Or.inr ⟨h, hv⟩)
    · exact Or.inr (Or.inr ⟨h.symm, hv⟩)
  · exact Or.inr (Or.inl h)

/-- `tagLE` is transitive. -/
theorem tagLE_trans (a b c : contest_tags_index_record) :
    tagLE a b = true → tagLE b c = true → tagLE a c = true := by
  rw [tagLE_iff, tagLE_iff, tagLE_iff]
  rintro (h1 | ⟨h1, h1'⟩) (h2 | ⟨h2, h2'⟩)
  · exact Or.inl (h1.trans h2)
  · exact Or.inl (h2 ▸ h1)
  · exact Or.inl (h1 ▸ h2)
  · exact Or.inr ⟨h1.trans h2, h1'.trans h2'⟩

/-! ## Lemmas about the ordered insert and the stores -/

/-- Membership in an ordered insert. -/
theorem mem_insert_upper {α : Type} (le : α → α → Bool) (l : List α) (t a : α) :
    a ∈ insert_upper le l t ↔ a = t ∨ a ∈ l := by
  induction l with
  | nil => simp [insert_upper]
  | cons x xs ih =>
    simp only [insert_upper]
    split
    · simp only [List.mem_cons, ih]
      tauto
    · simp only [List.mem_cons]

/-- An ordered insert is a permutation of prepending. -/
theorem perm_insert_upper {α : Type} (le : α → α → Bool) (l : List α) (t : α) :
    (insert_upper le l t).Perm (t :: l) := by
  induction l with
  | nil => exact List.Perm.refl _
  | cons x xs ih =>
    simp only [insert_upper]
    split
    · exact (ih.cons x).trans (List.Perm.swap t x xs)
    · exact List.Perm.refl _

/-- An ordered insert with a total transitive comparison preserves sortedness. -/
theorem pairwise_insert_upper {α : Type} {le : α → α → Bool}
    (total : ∀ a b, le a b = true ∨ le b a = true)
    (htrans : ∀ a b c, le a b = true → le b c = true → le a c = true)
    {l : List α} (t : α) (h : l.Pairwise (fun a b => le a b = true)) :
    (insert_upper le l t).Pairwise (fun a b => le a b = true) := by
  induction l with
  | nil => simp [insert_upper]
  | cons x xs ih =>
    rcases List.pairwise_cons.mp h with ⟨hx, hxs⟩
    simp only [insert_upper]
    split
    · next h1 =>
      refine List.pairwise_cons.mpr ⟨?_, ih hxs⟩
      intro y hy
      rcases (mem_insert_upper le xs t y).mp hy with rfl | hy'
      · exact h1
      · exact hx y hy'
    · next h1 =>
      have h2 : le t x = true := (total t x).resolve_right (by simpa using h1)
      refine List.pairwise_cons.mpr ⟨?_, h⟩
      intro y hy
      rcases List.mem_cons.mp hy with rfl | hy'
      · exact h2
      · exact htrans t x y h2 (hx y hy')

/-- Folding ordered inserts over a list is, up to permutation, appending the
mapped list. -/
theorem foldl_insert_upper_perm {α β : Type} (le : α → α → Bool) (f : β → α) :
    ∀ (ts : List β) (m0 : List α),
    (ts.foldl (fun m x => insert_upper le m (f x)) m0).Perm (m0 ++ ts.map f)
  | [], m0 => by simp
  | x :: ts, m0 => by
    simp only [List.foldl_cons, List.map_cons]
    have ih := foldl_insert_upper_perm le f ts (insert_upper le m0 (f x))
    refine ih.trans ?_
    refine (List.Perm.append_right (ts.map f) (perm_insert_upper le m0 (f x))).trans ?_
    exact List.perm_middle.symm

/-- Folding ordered inserts preserves sortedness. -/
theorem foldl_insert_upper_pairwise {α β : Type} {le : α → α → Bool}
    (total : ∀ a b, le a b = true ∨ le b a = true)
    (htrans : ∀ a b c, le a b = true → le b c = true → le a c = true)
    (f : β → α) :
    ∀ (ts : List β) {m0 : List α}, m0.Pairwise (fun a b => le a b = true) →
    (ts.foldl (fun m x => insert_upper le m (f x)) m0).Pairwise (fun a b => le a b = true)
  | [], _, h => h
  | x :: ts, m0, h => by
    simp only [List.foldl_cons]
    exact foldl_insert_upper_pairwise total htrans f ts (pairwise_insert_upper total htrans (f x) h)

/-- Re-storing the same key/value pair is idempotent for a `level_map`. -/
theorem level_map_store_idem {α : Type} (k : Nat) (v : α) :
    ∀ m : List (Nat × α), level_map_store (level_map_store m k v) k v = level_map_store m k v
  | [] => by simp [level_map_store]
  | (k', v') :: rest => by
    simp only [level_map_store]
    split
    · next h => simp [level_map_store, h, lt_irrefl]
    · split
      · next h => simp [level_map_store, h, lt_irrefl]
      · next h1 h2 =>
        simp only [level_map_store, if_neg h1, if_neg h2]
        rw [level_map_store_idem k v rest]

/-- Re-inserting a record whose id is already present leaves the decision
multi-index unchanged (`hashed_unique` on `id`). -/
theorem decision_index_insert_idem (idx : List decision_index_record)
    (r : decision_index_record) :
    decision_index_insert (decision_index_insert idx r) r = decision_index_insert idx r := by
  cases hA : idx.any (fun x => x.id == r.id) with
  | true => simp [decision_index_insert, hA]
  | false => simp [decision_index_insert, hA, List.any_append]

/-! ## Lemmas about the distinct-value scan -/

/-- A string is emitted by the distinct-values scan iff some entry carries it. -/
theorem distinct_values_mem (v : String) :
    ∀ l : List contest_tags_index_record,
    v ∈ distinct_values l ↔ ∃ t ∈ l, t.value = v := by
  intro l
  induction l using distinct_values.induct with
  | case1 => simp [distinct_values]
  | case2 t rest ih =>
    rw [distinct_values]
    simp only [List.mem_cons, ih]
    constructor
    · rintro (rfl | ⟨u, hu, rfl⟩)
      · exact ⟨t, Or.inl rfl, rfl⟩
      · exact ⟨u, Or.inr (List.mem_filter.mp hu).1, rfl⟩
    · rintro ⟨u, hu, rfl⟩
      rcases hu with rfl | hu'
      · exact Or.inl rfl
      · by_cases hv : u.value = t.value
        · exact Or.inl hv
        · exact Or.inr ⟨u, List.mem_filter.mpr ⟨hu', by simpa using hv⟩, rfl⟩

/-- On a value-sorted range the distinct-values scan is strictly increasing
(hence each value appears exactly once, in ascending order). -/
theorem distinct_values_pairwise :
    ∀ l : List contest_tags_index_record,
    l.Pairwise (fun a b => a.value ≤ b.value) →
    (distinct_values l).Pairwise (· < ·) := by
  intro l
  induction l using distinct_values.induct with
  | case1 => intro _; simp [distinct_values]
  | case2 t rest ih =>
    intro hp
    rcases List.pairwise_cons.mp hp with ⟨ht, hrest⟩
    rw [distinct_values]
    refine List.pairwise_cons.mpr ⟨?_, ih (hrest.sublist (List.filter_sublist rest))⟩
    intro v hv
    rcases (distinct_values_mem v _).mp hv with ⟨u, hu, rfl⟩
    rcases List.mem_filter.mp hu with ⟨hu1, hu2⟩
    have hne : t.value ≠ u.value := fun he => by simp [he.symm] at hu2
    exact lt_of_le_of_ne (ht u hu1) hne

/-! ## The secondary-index contents produced by sequences of stores -/

/-- The tag index entries a single contest contributes. -/
def tag_entries (c : contest) : List contest_tags_index_record :=
  c.tags.map (fun p => ⟨p.1, p.2, c.id⟩)

/-- `store_record_contest` only changes the contest store and the two contest
indices; its effect on the tag index is a fold of ordered inserts. -/
theorem store_record_contest_tags (st : ballot_box_state) (c : contest) :
    (store_record_contest st c).contest_tags_index =
      c.tags.foldl (fun m p => insert_upper tagLE m ⟨p.1, p.2, c.id⟩) st.contest_tags_index :=
  rfl

/-- After a sequence of contest stores the tag index holds, up to permutation,
one entry per tag pair of each stored contest. -/
theorem foldl_store_contest_tags_perm :
    ∀ (cs : List contest) (st : ballot_box_state),
    ((cs.foldl store_record_contest st).contest_tags_index).Perm
      (st.contest_tags_index ++ (cs.map tag_entries).flatten)
  | [], st => by simp
  | c :: cs, st => by
    simp only [List.foldl_cons, List.map_cons, List.flatten_cons]
    refine (foldl_store_contest_tags_perm cs (store_record_contest st c)).trans ?_
    rw [store_record_contest_tags]
    have h1 := foldl_insert_upper_perm tagLE
      (fun p : String × String => (⟨p.1, p.2, c.id⟩ : contest_tags_index_record))
      c.tags st.contest_tags_index
    refine (List.Perm.append_right _ h1).trans ?_
    simp only [tag_entries, List.append_assoc]
    exact List.Perm.refl _

/-- The tag index stays sorted by the composite `(key, value)` order across any
sequence of contest stores. -/
theorem foldl_store_contest_tags_pairwise :
    ∀ (cs : List contest) (st : ballot_box_state),
    st.contest_tags_index.Pairwise (fun a b => tagLE a b = true) →
    ((cs.foldl store_record_contest st).contest_tags_index).Pairwise
      (fun a b => tagLE a b = true)
  | [], _, h => h
  | c :: cs, st, h => by
    simp only [List.foldl_cons]
    refine foldl_store_contest_tags_pairwise cs (store_record_contest st c) ?_
    rw [store_record_contest_tags]
    exact foldl_insert_upper_pairwise tagLE_total tagLE_trans _ c.tags h

/-- Starting from a freshly opened empty box, the tag index holds exactly (up
to permutation) the tag entries of the stored contests. -/
theorem store_contests_tags_perm (cs : List contest) :
    ((store_contests cs).contest_tags_index).Perm ((cs.map tag_entries).flatten) := by
  have h := foldl_store_contest_tags_perm cs opened_empty
  simpa [store_contests, opened_empty, init_state] using h

/-- Starting from a freshly opened empty box, the tag index is sorted by the
composite `(key, value)` order. -/
theorem store_contests_tags_pairwise (cs : List contest) :
    ((store_contests cs).contest_tags_index).Pairwise (fun a b => tagLE a b = true) := by
  apply foldl_store_contest_tags_pairwise
  exact List.Pairwise.nil

/-- Counting tag-index entries after a sequence of contest stores, contest by
contest. -/
theorem countP_store_contests_tags (cs : List contest)
    (P : contest_tags_index_record → Bool) :
    ((store_contests cs).contest_tags_index).countP P
      = (cs.map (fun c => c.tags.countP (fun p => P ⟨p.1, p.2, c.id⟩))).sum := by
  rw [(store_contests_tags_perm cs).countP_eq, List.countP_flatten, List.map_map]
  congr 1
  apply List.map_congr_left
  intro c _
  simp only [Function.comp_apply, tag_entries, List.countP_map]
  rfl

/-- C7: for every tag key `k`, `get_values_by_tag(k)` returns all distinct
values that any stored contest has tagged under `k` — a value appears in
the result iff some stored contest carries the tag pair `(k, value)` — and the
result is strictly increasing in the lexicographic string order, so each value
is emitted exactly once, in ascending lexicographic order. -/
theorem get_values_by_tag_spec (cs : List contest) (key : String) :
    (get_values_by_tag (store_contests cs) key).Pairwise (· < ·) ∧
    ∀ v, v ∈ get_values_by_tag (store_contests cs) key ↔
      ∃ c ∈ cs, (key, v) ∈ c.tags := by
  have hperm := store_contests_tags_perm cs
  have hpair := store_contests_tags_pairwise cs
  constructor
  · apply distinct_values_pairwise
    have hf : ((store_contests cs).contest_tags_index.filter
        (fun t => t.key == key)).Pairwise (fun a b => tagLE a b = true) :=
      hpair.sublist (List.filter_sublist _)
    refine hf.imp_of_mem ?_
    intro a b ha hb hab
    have hka : a.key = key := by simpa using (List.mem_filter.mp ha).2
    have hkb : b.key = key := by simpa using (List.mem_filter.mp hb).2
    rcases (tagLE_iff a b).mp hab with h | ⟨_, h⟩
    · rw [hka, hkb] at h
      exact absurd h (lt_irrefl key)
    · exact h
  · intro v
    rw [get_values_by_tag, distinct_values_mem]
    constructor
    · rintro ⟨t, ht, rfl⟩
      rcases List.mem_filter.mp ht with ⟨ht1, ht2⟩
      have hk : t.key = key := by simpa using ht2
      rcases List.mem_flatten.mp ((hperm.mem_iff).mp ht1) with ⟨L, hL, htL⟩
      rcases List.mem_map.mp hL with ⟨c, hc, rfl⟩
      rcases List.mem_map.mp htL with ⟨p, hp, hpe⟩
      refine ⟨c, hc, ?_⟩
      cases hpe
      rw [← hk]
      simpa using hp
    · rintro ⟨c, hc, hkv⟩
      refine ⟨⟨key, v, c.id⟩, List.mem_filter.mpr ⟨?_, by simp⟩, rfl⟩
      refine (hperm.mem_iff).mpr (List.mem_flatten.mpr ⟨tag_entries c, ?_, ?_⟩)
      · exact List.mem_map.mpr ⟨c, hc, rfl⟩
      · exact List.mem_map.mpr ⟨(key, v), hkv, rfl⟩

/-- C8: `get_contests_by_tags(key, value)` with `value = ""` returns all
contest identifiers tagged with `key` under any value, once per matching
`(key, value)` index entry (a contest tagged with two distinct values for the
key appears twice), and with a non-empty `value` returns exactly the contests
tagged with the exact `(key, value)` pair — stated as: the multiplicity of
every identifier `i` in the result equals the number of matching tag pairs
over the stored contests whose id is `i`. -/
theorem get_contests_by_tags_spec (cs : List contest) (key value : String)
    (i : digest_type) :
    (get_contests_by_tags (store_contests cs) key value).count i =
      (cs.map (fun c => if c.id = i then
        c.tags.countP (fun p => p.1 == key && (value == "" || p.2 == value)) else 0)).sum := by
  cases hv : value == "" with
  | true =>
    rw [get_contests_by_tags, if_pos hv, List.count_eq_countP, List.countP_map,
      List.countP_filter, countP_store_contests_tags]
    apply congrArg List.sum
    apply List.map_congr_left
    intro c _
    by_cases hci : c.id = i
    · simp only [hci, if_pos rfl]
      apply List.countP_congr
      intro p _
      simp [hv]
    · rw [if_neg hci]
      refine List.countP_eq_zero.mpr ?_
      intro p _
      simp [hci]
  | false =>
    rw [get_contests_by_tags, if_neg (by simp [hv]), List.count_eq_countP, List.countP_map,
      List.countP_filter, countP_store_contests_tags]
    apply congrArg List.sum
    apply List.map_congr_left
    intro c _
    by_cases hci : c.id = i
    · simp only [hci, if_pos rfl]
      apply List.countP_congr
      intro p _
      simp [hv, Bool.and_comm]
    · rw [if_neg hci]
      refine List.countP_eq_zero.mpr ?_
      intro p _
      simp [hci]

/-- C5: after `clear()` every query operation returns an empty result and
`fetch` of any identifier fails with NotFound (the durable stores having been
wiped) when the engine was Open; the open/closed state is unchanged; and when
the engine was Closed the durable wipe is skipped (the stores keep their
contents, so `fetch` behaves as before) while all in-memory indices are still
emptied.  Since this holds for every engine state, it holds in particular after
storing any number of records of all three kinds. -/
theorem clear_wipes_everything (st : ballot_box_state) :
    (∀ k, get_decisions_by_voter (clearBox st) k = []) ∧
    (∀ k, get_decisions_by_contest (clearBox st) k = []) ∧
    (∀ k, get_decisions_by_ballot (clearBox st) k = []) ∧
    get_all_write_ins (clearBox st) = [] ∧
    (∀ n, get_decisions_with_write_in (clearBox st) n = []) ∧
    (∀ k, get_ballots_by_contest (clearBox st) k = []) ∧
    (∀ k, get_values_by_tag (clearBox st) k = []) ∧
    (∀ k v, get_contests_by_tags (clearBox st) k v = []) ∧
    (∀ n, get_contests_by_contestant (clearBox st) n = []) ∧
    (clearBox st).databases_open = st.databases_open ∧
    (clearBox st).decision_db = (if st.databases_open then [] else st.decision_db) ∧
    (clearBox st).ballot_db = (if st.databases_open then [] else st.ballot_db) ∧
    (clearBox st).contest_db = (if st.databases_open then [] else st.contest_db) ∧
    (∀ i, get_decision (clearBox st) i =
      (if st.databases_open then Except.error "NotFound" else get_decision st i)) := by
  by_cases h : st.databases_open <;>
    simp [clearBox, h, get_decisions_by_voter, get_decisions_by_contest,
      get_decisions_by_ballot, get_all_write_ins, get_decisions_with_write_in,
      get_ballots_by_contest, get_values_by_tag, get_contests_by_tags,
      get_contests_by_contestant, get_decision, level_map_fetch, distinct_keys,
      distinct_values]

/-- C9: for each of the three store operations, the durable persist is
performed strictly before any index insertion: when the durable write fails,
the operation fails with the engine state — in particular every in-memory
index — exactly as it was before the call (all-or-nothing), and when the
durable write succeeds the operation always succeeds (index insertion itself
never fails) and produces the normal store-then-index result. -/
theorem store_persist_before_index (st : ballot_box_state) (d : signed_voter_decision)
    (b : ballot) (c : contest) :
    store_record_decision_fallible false st d = Except.error ("DurableIOError", st) ∧
    store_record_ballot_fallible false st b = Except.error ("DurableIOError", st) ∧
    store_record_contest_fallible false st c = Except.error ("DurableIOError", st) ∧
    store_record_decision_fallible true st d = Except.ok (store_record_decision st d) ∧
    store_record_ballot_fallible true st b = Except.ok (store_record_ballot st b) ∧
    store_record_contest_fallible true st c = Except.ok (store_record_contest st c) :=
  ⟨rfl, rfl, rfl, rfl, rfl, rfl⟩

/-! ## Concrete records used to evaluate the engine -/

/-- A concrete non-default decision. -/
def dC1 : signed_voter_decision :=
  { contest_id := 1, ballot_id := 2, write_in_names := [], voter_signature := 3 }

/-- A concrete decision with distinct voter signature, contest, ballot and
write-in. -/
def dC2a : signed_voter_decision :=
  { contest_id := 1, ballot_id := 2, write_in_names := ["w1"], voter_signature := 3 }

/-- A second concrete decision, with all fields distinct from `dC2a`. -/
def dC2b : signed_voter_decision :=
  { contest_id := 4, ballot_id := 5, write_in_names := ["w2"], voter_signature := 6 }

/-- A concrete decision listing the write-in "Alice Smith". -/
def dC6a : signed_voter_decision :=
  { contest_id := 1, ballot_id := 2, write_in_names := ["Alice Smith"], voter_signature := 3 }

/-- A second, distinct concrete decision listing the same write-in. -/
def dC6b : signed_voter_decision :=
  { contest_id := 4, ballot_id := 5, write_in_names := ["Alice Smith"], voter_signature := 6 }

/-- A concrete decision used for the double-store experiment. -/
def dC10 : signed_voter_decision :=
  { contest_id := 7, ballot_id := 8, write_in_names := [], voter_signature := 9 }

/-- A concrete contest with one contestant and one tag. -/
def demo_contest : contest :=
  { contestants := [{ name := "Bob" }], tags := [("type", "primary")] }

/-- C1: the claimed store-then-fetch round trip fails.  Storing `dC1` while
Open and fetching under its content digest returns the default-constructed
record — the `decision_storage_record` converting constructor
(ballot_box.cpp:29) ignores its argument, so the persisted record is the
default one, which differs from `dC1`. -/
theorem store_then_fetch_roundtrip_failure :
    get_decision (store_record_decision opened_empty dC1) dC1.digest
        = Except.ok default_signed_voter_decision ∧
    default_signed_voter_decision ≠ dC1 :=
  ⟨rfl, by decide⟩

/-- C2: index completeness fails.  After storing the two decisions `dC2a`,
`dC2b` (distinct voters, contests, ballots, write-ins), the by-voter,
by-contest and by-ballot queries at the keys of `dC2a` all return `[]` instead
of `[dC2a.digest]`: every index record carries the default-constructed
record's voter/contest/ballot, so both stored decisions are grouped under the
default keys instead of their own. -/
theorem index_completeness_failure :
    get_decisions_by_voter (store_record_decision (store_record_decision opened_empty dC2a) dC2b)
        (address_of_key dC2a.voter_public_key) = [] ∧
    get_decisions_by_contest (store_record_decision (store_record_decision opened_empty dC2a) dC2b)
        dC2a.contest_id = [] ∧
    get_decisions_by_ballot (store_record_decision (store_record_decision opened_empty dC2a) dC2b)
        dC2a.ballot_id = [] ∧
    get_decisions_by_voter (store_record_decision (store_record_decision opened_empty dC2a) dC2b)
        (address_of_key default_signed_voter_decision.voter_public_key)
        = [dC2a.digest, dC2b.digest] :=
  ⟨rfl, rfl, rfl, rfl⟩

/-- C3: the rebuild-equivalence round trip cannot be performed through the
public facade.  After `open` on a fresh directory and a store (`demo_contest`,
whose by-contestant query then answers `[demo_contest.id]`), the facade's
`close()` closes only the decision store and leaves `databases_open` set, so
the re-`open` of the same directory fails with AlreadyOpen instead of
rebuilding — the post-reopen query results the claim speaks about never
exist. -/
theorem reopen_after_close_failure :
    get_contests_by_contestant (store_record_contest opened_empty demo_contest) "Bob"
        = [demo_contest.id] ∧
    openBox (facadeClose (store_record_contest opened_empty demo_contest))
        = Except.error "Refusing to open already-opened ballot box." :=
  ⟨rfl, rfl⟩

/-- C4: the close/open lifecycle fails.  A first `open` succeeds, but after a
store the facade's `close()` leaves `databases_open = true` (`is_open` still
answers true), leaves the ballot and contest stores open, leaves the
in-memory indices populated, and a subsequent `open` fails with AlreadyOpen —
`ballot_box::close` (ballot_box.cpp:303-306) only calls
`my->decision_db.close()` instead of `my->close()`, so the open → close →
open → close cycle breaks at its third step. -/
theorem close_lifecycle_failure :
    openBox init_state = Except.ok opened_empty ∧
    (facadeClose (store_record_contest opened_empty demo_contest)).databases_open = true ∧
    isOpen (facadeClose (store_record_contest opened_empty demo_contest)) = true ∧
    (facadeClose (store_record_contest opened_empty demo_contest)).ballot_db_open = true ∧
    (facadeClose (store_record_contest opened_empty demo_contest)).contest_db_open = true ∧
    (facadeClose (store_record_contest opened_empty demo_contest)).contest_by_contestant_index
        = [("Bob", demo_contest.id)] ∧
    openBox (facadeClose (store_record_contest opened_empty demo_contest))
        = Except.error "Refusing to open already-opened ballot box." :=
  ⟨rfl, rfl, rfl, rfl, rfl, rfl, rfl⟩

/-- C6: the write-in queries fail.  After storing the two distinct decisions
`dC6a`, `dC6b`, which both list the write-in name "Alice Smith",
`get_all_write_ins()` returns `[]` instead of `["Alice Smith"]` and
`get_decisions_with_write_in("Alice Smith")` returns `[]` instead of the two
decision identifiers: the storage-record constructor drops the write-in list,
so the write-in index never receives an entry. -/
theorem write_in_dedup_failure :
    get_all_write_ins (store_record_decision (store_record_decision opened_empty dC6a) dC6b)
        = [] ∧
    get_decisions_with_write_in (store_record_decision (store_record_decision opened_empty dC6a) dC6b)
        "Alice Smith" = [] := by
  constructor
  · show distinct_keys _ = []
    rw [show (store_record_decision (store_record_decision opened_empty dC6a) dC6b).write_in_index
        = [] from rfl]
    simp [distinct_keys]
  · rfl

/-- The effect of `store_record(ballot)` on the ballot-by-contest multimap, as
a fold of ordered inserts. -/
theorem store_record_ballot_bbc (st : ballot_box_state) (b : ballot) :
    (store_record_ballot st b).ballot_by_contest_index =
      b.contests.foldl (fun m cc => insert_upper natKeyLE m (cc, b.id))
        st.ballot_by_contest_index :=
  rfl

/-- C10 counterexample: storing the same decision twice does NOT put its
identifier twice into the query results derived from the decision indices.
After storing `dC10` twice from a freshly opened box, the durable store and
the decision multi-index are unchanged by the second store (the
`hashed_unique` id view rejects the duplicate), and the by-voter query at the
(only occupied) voter key contains `dC10.digest` exactly once. -/
theorem double_store_decision_counterexample :
    (store_record_decision (store_record_decision opened_empty dC10) dC10).decision_db
        = (store_record_decision opened_empty dC10).decision_db ∧
    (store_record_decision (store_record_decision opened_empty dC10) dC10).decision_index
        = (store_record_decision opened_empty dC10).decision_index ∧
    (get_decisions_by_voter (store_record_decision (store_record_decision opened_empty dC10) dC10)
        (address_of_key default_signed_voter_decision.voter_public_key)).count dC10.digest
        = 1 :=
  ⟨rfl, rfl, rfl⟩

/-- The effect of `store_record(contest)` on the contest-by-contestant
multimap, as a fold of ordered inserts. -/
theorem store_record_contest_contestants (st : ballot_box_state) (c : contest) :
    (store_record_contest st c).contest_by_contestant_index =
      c.contestants.foldl (fun m ct => insert_upper strKeyLE m (ct.name, c.id))
        st.contest_by_contestant_index :=
  rfl

/-- C10 amended: storing the same record twice is idempotent for the durable
store, and for decisions it is also idempotent for the in-memory indices (the
decision multi-index is `hashed_unique` by id, so the duplicate insert is
rejected, and — the storage-record constructor dropping the write-in list —
the write-in multimap receives no entries at all); the plain multimap indices
(ballot-by-contest, contest-by-contestant, contest-tags), by contrast, do
receive duplicate entries: after storing a ballot twice, each contest on it
resolves to the ballot id twice more than before, and after storing a contest
twice each of its contestant names resolves to the contest id twice more in
the by-contestant query and each of its tag pairs appears twice more in the
tag index. -/
theorem double_store_index_duplication (st : ballot_box_state)
    (d : signed_voter_decision) (b : ballot) (c : contest) (cid : digest_type)
    (nm tk tv : String) :
    (store_record_decision (store_record_decision st d) d).decision_db
        = (store_record_decision st d).decision_db ∧
    (store_record_decision (store_record_decision st d) d).decision_index
        = (store_record_decision st d).decision_index ∧
    (store_record_decision (store_record_decision st d) d).write_in_index
        = (store_record_decision st d).write_in_index ∧
    (store_record_ballot (store_record_ballot st b) b).ballot_db
        = (store_record_ballot st b).ballot_db ∧
    (get_ballots_by_contest (store_record_ballot (store_record_ballot st b) b) cid).count b.id
        = (get_ballots_by_contest st cid).count b.id + 2 * b.contests.count cid ∧
    (store_record_contest (store_record_contest st c) c).contest_db
        = (store_record_contest st c).contest_db ∧
    (get_contests_by_contestant (store_record_contest (store_record_contest st c) c) nm).count
        c.id
        = (get_contests_by_contestant st nm).count c.id
          + 2 * c.contestants.countP (fun ct => ct.name == nm) ∧
    ((store_record_contest (store_record_contest st c) c).contest_tags_index).count
        (⟨tk, tv, c.id⟩ : contest_tags_index_record)
        = st.contest_tags_index.count ⟨tk, tv, c.id⟩ + 2 * c.tags.count (tk, tv) := by
  refine ⟨level_map_store_idem _ _ _, decision_index_insert_idem _ _, rfl,
    level_map_store_idem _ _ _, ?_, level_map_store_idem _ _ _, ?_, ?_⟩
  · -- ballots: the multimap receives the (contest, ballot-id) pairs twice
    have hA := foldl_insert_upper_perm natKeyLE (fun cc : digest_type => (cc, b.id))
      b.contests st.ballot_by_contest_index
    have hB := foldl_insert_upper_perm natKeyLE (fun cc : digest_type => (cc, b.id))
      b.contests (store_record_ballot st b).ballot_by_contest_index
    have count_eq : ∀ l : List (digest_type × digest_type),
        ((l.filter (fun p => p.1 == cid)).map (fun p => p.2)).count b.id
          = l.countP (fun p => p.2 == b.id && p.1 == cid) := by
      intro l
      rw [List.count_eq_countP, List.countP_map, List.countP_filter]
      rfl
    have hmap : (b.contests.map (fun cc : digest_type => (cc, b.id))).countP
        (fun p => p.2 == b.id && p.1 == cid) = b.contests.count cid := by
      rw [List.countP_map, List.count_eq_countP]
      apply List.countP_congr
      intro a _
      simp
    rw [store_record_ballot_bbc] at hB
    rw [get_ballots_by_contest, get_ballots_by_contest, count_eq, count_eq,
      store_record_ballot_bbc, store_record_ballot_bbc, hB.countP_eq, List.countP_append,
      hA.countP_eq, List.countP_append, hmap]
    ring
  · -- contests: the contestant multimap receives the (name, contest-id) pairs twice
    have hA := foldl_insert_upper_perm strKeyLE (fun ct : contestant => (ct.name, c.id))
      c.contestants st.contest_by_contestant_index
    have hB := foldl_insert_upper_perm strKeyLE (fun ct : contestant => (ct.name, c.id))
      c.contestants (store_record_contest st c).contest_by_contestant_index
    have count_eq : ∀ l : List (String × digest_type),
        ((l.filter (fun p => p.1 == nm)).map (fun p => p.2)).count c.id
          = l.countP (fun p => p.2 == c.id && p.1 == nm) := by
      intro l
      rw [List.count_eq_countP, List.countP_map, List.countP_filter]
      rfl
    have hmap : (c.contestants.map (fun ct : contestant => (ct.name, c.id))).countP
        (fun p => p.2 == c.id && p.1 == nm)
        = c.contestants.countP (fun ct => ct.name == nm) := by
      rw [List.countP_map]
      apply List.countP_congr
      intro ct _
      simp
    rw [store_record_contest_contestants] at hB
    rw [get_contests_by_contestant, get_contests_by_contestant, count_eq, count_eq,
      store_record_contest_contestants, store_record_contest_contestants, hB.countP_eq,
      List.countP_append, hA.countP_eq, List.countP_append, hmap]
    ring
  · -- contests: the tag index receives the tag entries twice
    have hA := foldl_insert_upper_perm tagLE
      (fun p : String × String => (⟨p.1, p.2, c.id⟩ : contest_tags_index_record))
      c.tags st.contest_tags_index
    have hB := foldl_insert_upper_perm tagLE
      (fun p : String × String => (⟨p.1, p.2, c.id⟩ : contest_tags_index_record))
      c.tags (store_record_contest st c).contest_tags_index
    have hmap : (c.tags.map
        (fun p : String × String => (⟨p.1, p.2, c.id⟩ : contest_tags_index_record))).count
        (⟨tk, tv, c.id⟩ : contest_tags_index_record) = c.tags.count (tk, tv) := by
      rw [List.count_eq_countP, List.countP_map, List.count_eq_countP]
      apply List.countP_congr
      intro p _
      simp [contest_tags_index_record.mk.injEq, Prod.ext_iff]
    rw [store_record_contest_tags] at hB
    rw [store_record_contest_tags, store_record_contest_tags, List.count_eq_countP,
      hB.countP_eq, List.countP_append, hA.countP_eq, List.countP_append,
      ← List.count_eq_countP, ← List.count_eq_countP, hmap]
    ring
